import Mathlib

/-!
Verification of the deterministic CV-mapping core of the ResumeGen (tailorcv)
repository: the Profile + selection-plan to RenderCV-dictionary mapper
(src/tailorcv/mappers/rendercv_mapper.py) and the document assembler
(src/tailorcv/assemblers/rendercv_document.py).

Python dictionaries preserve insertion order, and the spec makes claims about
key order, so dictionaries are embedded as association lists over a JSON-like
value type. Setting a key that already exists updates it in place (keeping its
position); setting a fresh key appends, exactly as in CPython.
-/

namespace TailorCV

/-- JSON-like values stored in the output dictionaries: strings, arrays and
objects (objects are insertion-ordered association lists). -/
inductive Value where
  | str : String → Value
  | arr : List Value → Value
  | obj : List (String × Value) → Value

/-- A Python dictionary with string keys, embedded as an insertion-ordered
association list. -/
abbrev Dict := List (String × Value)

/-- Lookup of a key in a dictionary: the value of the first (in a well-formed
dict, only) pair carrying that key. -/
def dictGet (d : List (String × Value)) (k : String) : Option Value :=
  (d.find? (fun p => p.1 == k)).map Prod.snd

/-- Whether a dictionary has a pair with the given key. -/
def hasKey {α : Type} (d : List (String × α)) (k : String) : Bool :=
  d.any (fun p => p.1 == k)

/-- Python dict assignment d[k] = v: update in place when the key exists,
append otherwise. -/
def dictSet (d : List (String × Value)) (k : String) (v : Value) : Dict :=
  if hasKey d k then d.map (fun p => if p.1 == k then (k, v) else p)
  else d ++ [(k, v)]

/-- The values Python code passes to the omission helper in this repository:
None, a string, or a list of strings. -/
inductive PyVal where
  | none : PyVal
  | str : String → PyVal
  | list : List String → PyVal
deriving DecidableEq, Repr

/-- Lift an optional string attribute to the Python-value view. -/
def optV : Option String → PyVal
  | Option.none => PyVal.none
  | Option.some s => PyVal.str s

/-- Embeds tailorcv.mappers.rendercv_mapper._set_if_present: set a key only if
the value is not None and not an empty list. -/
def set_if_present (target : Dict) (key : String) (value : PyVal) : Dict :=
  match value with
  | PyVal.none => target
  | PyVal.str s => dictSet target key (Value.str s)
  | PyVal.list l => if l.isEmpty then target else dictSet target key (Value.arr (l.map Value.str))

/-! ## Data model

The mapper's input types Profile and LlmSelectionPlan live in
tailorcv/schema/profile_schema.py and tailorcv/llm/selection_schema.py, which
are outside the sources in scope; the record shapes below are modelled from
the spec (sections 3 and 6) and from the attribute accesses the mapper makes.
-/

/-- Modelled from the spec: a social-network link of the profile header
(profile_schema.py is not among the sources in scope); the mapper reads
fields network and username. -/
structure Social where
  network : String
  username : String
deriving DecidableEq, Repr

/-- Modelled from the spec: profile header metadata with required name and
optional headline, location, email, phone, website, plus social links
(profile_schema.py is not among the sources in scope). -/
structure Meta where
  name : String
  headline : Option String
  location : Option String
  email : Option String
  phone : Option String
  website : Option String
  socials : List Social
deriving DecidableEq, Repr

/-- Modelled from the spec: an experience entry with stable optional
identifier, required company and position, optional descriptive fields and an
ordered highlight list (profile_schema.py is not among the sources in
scope). -/
structure Experience where
  id : Option String
  company : String
  position : String
  location : Option String
  date : Option String
  start_date : Option String
  end_date : Option String
  summary : Option String
  highlights : List String
deriving DecidableEq, Repr

/-- Modelled from the spec: an education entry with required institution and
area, optional degree and other descriptive fields, and a highlight list
(profile_schema.py is not among the sources in scope). -/
structure Education where
  id : Option String
  institution : String
  area : String
  degree : Option String
  location : Option String
  date : Option String
  start_date : Option String
  end_date : Option String
  summary : Option String
  highlights : List String
deriving DecidableEq, Repr

/-- Modelled from the spec: a project entry with required name, optional
descriptive fields and a highlight list (profile_schema.py is not among the
sources in scope). -/
structure Project where
  id : Option String
  name : String
  summary : Option String
  location : Option String
  date : Option String
  start_date : Option String
  end_date : Option String
  highlights : List String
deriving DecidableEq, Repr

/-- Modelled from the spec: a skill entry exposing a label and details
(profile_schema.py is not among the sources in scope). -/
structure Skill where
  label : String
  details : String
deriving DecidableEq, Repr

/-- Modelled from the spec: the profile record owning the header metadata and
the entry collections (profile_schema.py is not among the sources in
scope). -/
structure Profile where
  meta : Meta
  experience : List Experience
  education : List Education
  projects : List Project
  skills : List Skill
deriving DecidableEq, Repr

/-- Modelled from the spec: the LLM selection plan with per-category selected
identifier lists, selected skill labels, bullet overrides keyed by entry
identifier, and a preferred section order (selection_schema.py is not among
the sources in scope). -/
structure LlmSelectionPlan where
  selected_experience_ids : List String
  selected_education_ids : List String
  selected_project_ids : List String
  selected_skill_labels : List String
  bullet_overrides : List (String × List String)
  section_order : List String
deriving DecidableEq, Repr

/-- Key lookup in the bullet-override mapping. -/
def overridesLookup (overrides : List (String × List String)) (i : String) :
    Option (List String) :=
  (overrides.find? (fun p => p.1 == i)).map Prod.snd

/-! ## Mapper (rendercv_mapper.py) -/

/-- Embeds _select_items: select items by identifier, or return all items when
the selection list is empty; a missing identifier never matches. -/
def select_items {α : Type} (getId : α → Option String) (items : List α)
    (selected_ids : List String) : List α :=
  if selected_ids.isEmpty then items
  else items.filter (fun item =>
    match getId item with
    | Option.some i => selected_ids.contains i
    | Option.none => false)

/-- Embeds _resolve_highlights: when the entry identifier is truthy (present
and non-empty) and appears as a key of the plan's bullet_overrides, return the
override list; otherwise return the original highlights. -/
def resolve_highlights (entry_id : Option String) (highlights : List String)
    (plan : LlmSelectionPlan) : List String :=
  match entry_id with
  | Option.none => highlights
  | Option.some i =>
    if i = "" then highlights
    else
      match overridesLookup plan.bullet_overrides i with
      | Option.some ov => ov
      | Option.none => highlights

/-- The item["highlights"] step shared by the three entry mappers: store the
resolved highlight list only when it is non-empty. -/
def withHighlights (item : Dict) (highlights : List String) : Dict :=
  if highlights.isEmpty then item
  else dictSet item "highlights" (Value.arr (highlights.map Value.str))

/-- The plan-independent fields of a mapped experience entry: required company
and position, then optional fields under the omission rule. -/
def expFields (exp : Experience) : Dict :=
  let item : Dict := [("company", Value.str exp.company), ("position", Value.str exp.position)]
  let item := set_if_present item "location" (optV exp.location)
  let item := set_if_present item "date" (optV exp.date)
  let item := set_if_present item "start_date" (optV exp.start_date)
  let item := set_if_present item "end_date" (optV exp.end_date)
  let item := set_if_present item "summary" (optV exp.summary)
  item

/-- One mapped experience entry, as built inside _map_experience. -/
def expEntry (plan : LlmSelectionPlan) (exp : Experience) : Dict :=
  withHighlights (expFields exp) (resolve_highlights exp.id exp.highlights plan)

/-- Embeds _map_experience: select then map experience entries. -/
def map_experience (profile : Profile) (plan : LlmSelectionPlan) : List Dict :=
  (select_items Experience.id profile.experience plan.selected_experience_ids).map
    (expEntry plan)

/-- The plan-independent fields of a mapped education entry. -/
def eduFields (edu : Education) : Dict :=
  let item : Dict := [("institution", Value.str edu.institution), ("area", Value.str edu.area)]
  let item := set_if_present item "degree" (optV edu.degree)
  let item := set_if_present item "location" (optV edu.location)
  let item := set_if_present item "date" (optV edu.date)
  let item := set_if_present item "start_date" (optV edu.start_date)
  let item := set_if_present item "end_date" (optV edu.end_date)
  let item := set_if_present item "summary" (optV edu.summary)
  item

/-- One mapped education entry, as built inside _map_education. -/
def eduEntry (plan : LlmSelectionPlan) (edu : Education) : Dict :=
  withHighlights (eduFields edu) (resolve_highlights edu.id edu.highlights plan)

/-- Embeds _map_education: select then map education entries. -/
def map_education (profile : Profile) (plan : LlmSelectionPlan) : List Dict :=
  (select_items Education.id profile.education plan.selected_education_ids).map
    (eduEntry plan)

/-- The plan-independent fields of a mapped project entry. -/
def projFields (proj : Project) : Dict :=
  let item : Dict := [("name", Value.str proj.name)]
  let item := set_if_present item "summary" (optV proj.summary)
  let item := set_if_present item "location" (optV proj.location)
  let item := set_if_present item "date" (optV proj.date)
  let item := set_if_present item "start_date" (optV proj.start_date)
  let item := set_if_present item "end_date" (optV proj.end_date)
  item

/-- One mapped project entry, as built inside _map_projects. -/
def projEntry (plan : LlmSelectionPlan) (proj : Project) : Dict :=
  withHighlights (projFields proj) (resolve_highlights proj.id proj.highlights plan)

/-- Embeds _map_projects: select then map project entries. -/
def map_projects (profile : Profile) (plan : LlmSelectionPlan) : List Dict :=
  (select_items Project.id profile.projects plan.selected_project_ids).map
    (projEntry plan)

/-- One mapped skill entry. -/
def skillEntry (skill : Skill) : Dict :=
  [("label", Value.str skill.label), ("details", Value.str skill.details)]

/-- Embeds _map_skills: when the selected-label list is non-empty keep only
skills whose label is selected, otherwise keep all skills; then map each to a
label/details entry. -/
def map_skills (profile : Profile) (plan : LlmSelectionPlan) : List Dict :=
  let entries :=
    if plan.selected_skill_labels.isEmpty then profile.skills
    else profile.skills.filter (fun s => plan.selected_skill_labels.contains s.label)
  entries.map skillEntry

/-- Embeds _apply_header: required name, optional header fields under the
omission rule, and the social-network list only when non-empty. -/
def apply_header (cv : Dict) (profile : Profile) : Dict :=
  let meta := profile.meta
  let cv := dictSet cv "name" (Value.str meta.name)
  let cv := set_if_present cv "headline" (optV meta.headline)
  let cv := set_if_present cv "location" (optV meta.location)
  let cv := set_if_present cv "email" (optV meta.email)
  let cv := set_if_present cv "phone" (optV meta.phone)
  let cv := set_if_present cv "website" (optV meta.website)
  if meta.socials.isEmpty then cv
  else dictSet cv "social_networks"
    (Value.arr (meta.socials.map (fun s =>
      Value.obj [("network", Value.str s.network), ("username", Value.str s.username)])))

/-- The recursion of _order_sections over the preferred-order titles: pop each
named section out of the remaining dict into the ordered dict, skipping titles
with no section, then append what remains. -/
def order_go {α : Type} (ordered remaining : List (String × α)) :
    List String → List (String × α)
  | [] => ordered ++ remaining
  | t :: ts =>
    match remaining.find? (fun p => p.1 == t) with
    | Option.some p => order_go (ordered ++ [p]) (remaining.eraseP (fun q => q.1 == t)) ts
    | Option.none => order_go ordered remaining ts

/-- Embeds _order_sections: an empty preferred order keeps the sections
unchanged; otherwise sections named in the preferred list come first, in its
order, followed by the remaining sections in their original order. -/
def order_sections {α : Type} (sections : List (String × α))
    (preferred_order : List String) : List (String × α) :=
  if preferred_order.isEmpty then sections
  else order_go [] sections preferred_order

/-- The value a section's entry list occupies in the output. -/
def secVal (entries : List Dict) : Value :=
  Value.arr (entries.map Value.obj)

/-- The section-building part of build_cv_dict: each of the four canonical
sections is added, in canonical order, only when it has at least one mapped
entry. -/
def build_sections (profile : Profile) (plan : LlmSelectionPlan) :
    List (String × Value) :=
  let sections : List (String × Value) := []
  let sections :=
    if (map_experience profile plan).isEmpty then sections
    else dictSet sections "Experience" (secVal (map_experience profile plan))
  let sections :=
    if (map_projects profile plan).isEmpty then sections
    else dictSet sections "Projects" (secVal (map_projects profile plan))
  let sections :=
    if (map_education profile plan).isEmpty then sections
    else dictSet sections "Education" (secVal (map_education profile plan))
  let sections :=
    if (map_skills profile plan).isEmpty then sections
    else dictSet sections "Skills" (secVal (map_skills profile plan))
  sections

/-- Embeds build_cv_dict: apply the header, build and order the non-empty
sections, attach them only when at least one exists, and wrap everything under
the single top-level key cv. -/
def build_cv_dict (profile : Profile) (plan : LlmSelectionPlan) : Dict :=
  let cv := apply_header [] profile
  let ordered := order_sections (build_sections profile plan) plan.section_order
  let cv := if ordered.isEmpty then cv else dictSet cv "sections" (Value.obj ordered)
  [("cv", Value.obj cv)]

/-! ## Assembler (rendercv_document.py) -/

/-- Modelled from the spec: the three zero-argument default lookups of the
external defaults module tailorcv.defaults.rendercv_defaults, which is not
among the sources in scope; each returns a fixed default mapping. -/
structure DefaultsProvider where
  get_default_design : Dict
  get_default_locale : Dict
  get_default_settings : Dict

/-- Embeds assemble_rendercv_document: the cv block is the input body's cv
mapping when present (else an empty mapping), and each of design, locale and
settings is the override when supplied, else the external default. -/
def assemble_rendercv_document (dp : DefaultsProvider) (cv_dict : Dict)
    (design locale settings : Option Dict) : Dict :=
  let cvBlock : Value :=
    match dictGet cv_dict "cv" with
    | Option.some (Value.obj o) => Value.obj o
    | Option.some v => v
    | Option.none => Value.obj []
  let document : Dict := [("cv", cvBlock)]
  let document := dictSet document "design" (Value.obj (design.getD dp.get_default_design))
  let document := dictSet document "locale" (Value.obj (locale.getD dp.get_default_locale))
  let document := dictSet document "settings" (Value.obj (settings.getD dp.get_default_settings))
  document

/-! ## Output observation helpers -/

/-- The cv object of a mapper output. -/
def cvObjOf (out : Dict) : Dict :=
  match dictGet out "cv" with
  | Option.some (Value.obj c) => c
  | _ => []

/-- The sections object of a mapper output, empty when the sections key is
absent. -/
def outSections (out : Dict) : List (String × Value) :=
  match dictGet (cvObjOf out) "sections" with
  | Option.some (Value.obj s) => s
  | _ => []

/-! ## Spec-side definitions for refinement claims -/

/-- First-occurrence deduplication of a title list: a title names a section at
most once, at its first mention. -/
def dedupKeep : List String → List String
  | [] => []
  | t :: ts => t :: dedupKeep (ts.filter (fun u => u ≠ t))
termination_by l => l.length
decreasing_by
  simp only [List.length_cons]
  exact Nat.lt_succ_of_le (ts.length_filter_le _)

/-- Follows the spec's words for the ordering policy: sections named in the
preferred list come first, in the list's order (a name that does not
correspond to an existing section is silently skipped), then all remaining
sections follow in their original order. -/
def specOrder {α : Type} (sections : List (String × α))
    (preferred_order : List String) : List (String × α) :=
  (dedupKeep preferred_order).filterMap (fun t => sections.find? (fun q => q.1 == t))
    ++ sections.filter (fun q => ¬ preferred_order.contains q.1)

/-- Follows the spec's words for the selection policy: an empty
selected-identifier set means all entries in their original order, otherwise
exactly the entries whose identifier is a member of the set, preserving the
original relative order. -/
def specSelect {α : Type} (getId : α → Option String) (items : List α)
    (ids : List String) : List α :=
  if ids = [] then items
  else items.filter (fun it =>
    match getId it with
    | Option.some i => ids.contains i
    | Option.none => false)

/-! ## Concrete fixtures used to instantiate the theorems -/

/-- A concrete experience entry with identifier e1 and two highlights. -/
def exW : Experience :=
  { id := Option.some "e1", company := "Acme", position := "Engineer",
    location := Option.none, date := Option.none, start_date := Option.none,
    end_date := Option.none, summary := Option.none, highlights := ["a", "b"] }

/-- A concrete education entry with identifier d1. -/
def eduW : Education :=
  { id := Option.some "d1", institution := "Uni", area := "CS",
    degree := Option.none, location := Option.none, date := Option.none,
    start_date := Option.none, end_date := Option.none, summary := Option.none,
    highlights := ["h"] }

/-- A concrete project entry with identifier p1. -/
def projW : Project :=
  { id := Option.some "p1", name := "Proj", summary := Option.none,
    location := Option.none, date := Option.none, start_date := Option.none,
    end_date := Option.none, highlights := ["q"] }

/-- A plan with empty selections and bullet overrides for e1, d1 and p1. -/
def planW : LlmSelectionPlan :=
  { selected_experience_ids := [], selected_education_ids := [],
    selected_project_ids := [], selected_skill_labels := [],
    bullet_overrides := [("e1", ["x"]), ("d1", ["y"]), ("p1", ["z"])],
    section_order := [] }

/-- A plan selecting nothing and overriding nothing. -/
def planEmptyW : LlmSelectionPlan :=
  { selected_experience_ids := [], selected_education_ids := [],
    selected_project_ids := [], selected_skill_labels := [],
    bullet_overrides := [], section_order := [] }

/-- A plan whose only content is a non-empty selected-skill-label list. -/
def planSkillsW : LlmSelectionPlan :=
  { selected_experience_ids := [], selected_education_ids := [],
    selected_project_ids := [], selected_skill_labels := ["X"],
    bullet_overrides := [], section_order := [] }

/-- Header metadata with an empty headline string and no socials. -/
def metaEmptyW : Meta :=
  { name := "Ada", headline := Option.some "", location := Option.none,
    email := Option.none, phone := Option.none, website := Option.none,
    socials := [] }

/-- A profile with an empty headline string and no entries at all. -/
def profileEmptyW : Profile :=
  { meta := metaEmptyW,
    experience := [], education := [], projects := [], skills := [] }

/-- A concrete skill entry. -/
def skillW : Skill := { label := "Python", details := "expert" }

/-- A profile carrying one entry of every category. -/
def profileFullW : Profile :=
  { meta := metaEmptyW,
    experience := [exW], education := [eduW], projects := [projW],
    skills := [skillW] }

/-- A defaults provider with small concrete default blocks. -/
def dpW : DefaultsProvider :=
  { get_default_design := [("theme", Value.str "classic")],
    get_default_locale := [("language", Value.str "en")],
    get_default_settings := [("date", Value.str "today")] }

/-- A concrete assembler input body carrying a cv mapping. -/
def bodyW : Dict := [("cv", Value.obj [("name", Value.str "Ada")])]

/-! ## Dictionary lemmas -/

theorem dictGet_nil (k : String) : dictGet [] k = Option.none := rfl

theorem dictGet_cons (k1 : String) (v1 : Value) (d : Dict) (k : String) :
    dictGet ((k1, v1) :: d) k = if k1 = k then Option.some v1 else dictGet d k := by
  by_cases h : k1 = k <;> simp [dictGet, List.find?_cons, h]

theorem hasKey_nil {α : Type} (k : String) : hasKey ([] : List (String × α)) k = false := rfl

theorem hasKey_cons {α : Type} (k1 : String) (v1 : α) (d : List (String × α)) (k : String) :
    hasKey ((k1, v1) :: d) k = (k1 == k || hasKey d k) := by
  simp [hasKey]

theorem hasKey_iff_dictGet (d : Dict) (k : String) :
    hasKey d k = true ↔ dictGet d k ≠ Option.none := by
  induction d with
  | nil => simp [hasKey_nil, dictGet_nil]
  | cons p tl ih =>
    obtain ⟨k1, v1⟩ := p
    by_cases h : k1 = k <;> simp [hasKey_cons, dictGet_cons, h, ih]

theorem not_hasKey_dictGet (d : Dict) (k : String) (h : hasKey d k = false) :
    dictGet d k = Option.none := by
  by_contra hne
  have ht := (hasKey_iff_dictGet d k).mpr hne
  rw [ht] at h
  exact Bool.noConfusion h

theorem dictGet_mapUpdate (d : Dict) (k k' : String) (v : Value) :
    dictGet (d.map (fun p => if p.1 == k then (k, v) else p)) k' =
      if k' = k ∧ hasKey d k then Option.some v else dictGet d k' := by
  induction d with
  | nil => simp [hasKey_nil]
  | cons p tl ih =>
    obtain ⟨k1, v1⟩ := p
    simp only [beq_iff_eq] at ih
    by_cases h1 : k1 = k
    · subst h1
      by_cases h2 : k' = k1
      · subst h2
        simp [List.map_cons, dictGet_cons, hasKey_cons]
      · simp [List.map_cons, dictGet_cons, hasKey_cons, ih, h2, Ne.symm h2]
    · by_cases h2 : k1 = k'
      · subst h2
        simp [List.map_cons, dictGet_cons, hasKey_cons, h1]
      · simp [List.map_cons, dictGet_cons, hasKey_cons, h1, h2, ih]

theorem dictGet_append_single (d : Dict) (k k' : String) (v : Value) :
    dictGet (d ++ [(k, v)]) k' =
      if hasKey d k' then dictGet d k' else if k = k' then Option.some v else Option.none := by
  induction d with
  | nil => simp [hasKey_nil, dictGet_cons, dictGet_nil]
  | cons p tl ih =>
    obtain ⟨k1, v1⟩ := p
    by_cases h : k1 = k' <;> simp [dictGet_cons, hasKey_cons, h, ih]

theorem dictGet_dictSet (d : Dict) (k k' : String) (v : Value) :
    dictGet (dictSet d k v) k' = if k' = k then Option.some v else dictGet d k' := by
  unfold dictSet
  by_cases hk : hasKey d k
  · rw [if_pos hk, dictGet_mapUpdate]
    by_cases h2 : k' = k <;> simp [h2, hk]
  · rw [if_neg hk, dictGet_append_single]
    have hkf : hasKey d k = false := by
      cases hb : hasKey d k
      · rfl
      · exact absurd hb hk
    by_cases h2 : k' = k
    · subst h2
      simp [hkf, not_hasKey_dictGet d k' hkf]
    · by_cases h3 : hasKey d k'
      · simp [h3, h2]
      · have h3f : hasKey d k' = false := by
          cases hb : hasKey d k'
          · rfl
          · exact absurd hb h3
        simp [h3f, h2, Ne.symm h2, not_hasKey_dictGet d k' h3f]

theorem dictGet_set_if_present_optV (d : Dict) (k k' : String) (o : Option String) :
    dictGet (set_if_present d k (optV o)) k' =
      if k' = k then (match o with
        | Option.some s => Option.some (Value.str s)
        | Option.none => dictGet d k') else dictGet d k' := by
  cases o with
  | none => simp [optV, set_if_present]
  | some s => simp [optV, set_if_present, dictGet_dictSet]

theorem dictGet_withHighlights (item : Dict) (h : List String) (k : String) :
    dictGet (withHighlights item h) k =
      if k = "highlights" ∧ ¬ h.isEmpty then Option.some (Value.arr (h.map Value.str))
      else dictGet item k := by
  unfold withHighlights
  by_cases he : h.isEmpty
  · simp [he]
  · by_cases hk : k = "highlights" <;> simp [he, hk, dictGet_dictSet]

/-! ## Ordering lemmas -/

theorem perm_cons_eraseP_of_find? {α : Type} (pr : α → Bool) (l : List α) :
    ∀ a : α, l.find? pr = Option.some a → l.Perm (a :: l.eraseP pr) := by
  induction l with
  | nil => intro a h; simp at h
  | cons x tl ih =>
    intro a h
    by_cases hx : pr x
    · rw [List.find?_cons_of_pos _ hx] at h
      cases h
      rw [List.eraseP_cons_of_pos hx]
    · rw [List.find?_cons_of_neg _ hx] at h
      rw [List.eraseP_cons_of_neg (by simpa using hx)]
      exact ((ih a h).cons x).trans (List.Perm.swap a x _)

theorem order_go_perm {α : Type} (ts : List String) :
    ∀ ordered remaining : List (String × α),
      (order_go ordered remaining ts).Perm (ordered ++ remaining) := by
  induction ts with
  | nil =>
    intro ordered remaining
    simp only [order_go]
    exact List.Perm.refl _
  | cons t ts ih =>
    intro ordered remaining
    simp only [order_go]
    cases hf : remaining.find? (fun p => p.1 == t) with
    | none => exact ih ordered remaining
    | some p =>
      have h1 := ih (ordered ++ [p]) (remaining.eraseP (fun q => q.1 == t))
      have h2 := perm_cons_eraseP_of_find? (fun q => q.1 == t) remaining p hf
      have h3 : (ordered ++ [p]) ++ remaining.eraseP (fun q => q.1 == t)
          = ordered ++ (p :: remaining.eraseP (fun q => q.1 == t)) := by simp
      rw [h3] at h1
      exact h1.trans (List.Perm.append_left ordered h2.symm)

theorem order_sections_perm {α : Type} (s : List (String × α)) (pref : List String) :
    (order_sections s pref).Perm s := by
  unfold order_sections
  by_cases hp : pref.isEmpty
  · rw [if_pos hp]
  · rw [if_neg hp]
    simpa using order_go_perm pref [] s

theorem hasKey_congr_perm {α : Type} {s t : List (String × α)} (h : s.Perm t)
    (k : String) : hasKey s k = hasKey t k := by
  have hiff : (hasKey s k = true) ↔ (hasKey t k = true) := by
    simp only [hasKey, List.any_eq_true]
    constructor
    · rintro ⟨p, hp, hpk⟩
      exact ⟨p, h.mem_iff.mp hp, hpk⟩
    · rintro ⟨p, hp, hpk⟩
      exact ⟨p, h.mem_iff.mpr hp, hpk⟩
  cases hs : hasKey s k <;> cases ht : hasKey t k <;> simp_all

theorem find?_eraseP_key_ne {α : Type} (t u : String) (hne : t ≠ u) (l : List (String × α)) :
    (l.eraseP (fun q => q.1 == t)).find? (fun q => q.1 == u) = l.find? (fun q => q.1 == u) := by
  induction l with
  | nil => simp
  | cons x tl ih =>
    by_cases hx : x.1 = t
    · rw [List.eraseP_cons_of_pos (by simpa using hx)]
      rw [List.find?_cons_of_neg _ (by simp [hx, hne])]
    · rw [List.eraseP_cons_of_neg (by simpa using hx)]
      by_cases hu : x.1 = u
      · rw [List.find?_cons_of_pos _ (by simpa using hu),
          List.find?_cons_of_pos _ (by simpa using hu)]
      · rw [List.find?_cons_of_neg _ (by simpa using hu),
          List.find?_cons_of_neg _ (by simpa using hu)]
        exact ih

theorem find?_eraseP_key_self {α : Type} (t : String) (l : List (String × α))
    (hnd : (l.map Prod.fst).Nodup) :
    (l.eraseP (fun q => q.1 == t)).find? (fun q => q.1 == t) = Option.none := by
  induction l with
  | nil => simp
  | cons x tl ih =>
    simp only [List.map_cons, List.nodup_cons] at hnd
    by_cases hx : x.1 = t
    · rw [List.eraseP_cons_of_pos (by simpa using hx)]
      rw [List.find?_eq_none]
      intro q hq
      simp only [beq_iff_eq]
      intro hqt
      apply hnd.1
      rw [hx, ← hqt]
      exact List.mem_map_of_mem Prod.fst hq
    · rw [List.eraseP_cons_of_neg (by simpa using hx)]
      rw [List.find?_cons_of_neg _ (by simpa using hx)]
      exact ih hnd.2

theorem filter_eraseP_key {α : Type} (t : String) (ts : List String)
    (l : List (String × α)) (hnd : (l.map Prod.fst).Nodup) :
    (l.eraseP (fun q => q.1 == t)).filter (fun q => ¬ ts.contains q.1)
      = l.filter (fun q => ¬ (q.1 = t ∨ ts.contains q.1)) := by
  induction l with
  | nil => simp
  | cons x tl ih =>
    simp only [List.map_cons, List.nodup_cons] at hnd
    by_cases hx : x.1 = t
    · rw [List.eraseP_cons_of_pos (by simpa using hx)]
      rw [List.filter_cons_of_neg (by simp [hx])]
      apply List.filter_congr
      intro q hq
      have hqt : q.1 ≠ t := by
        intro hq1
        apply hnd.1
        rw [hx, ← hq1]
        exact List.mem_map_of_mem Prod.fst hq
      simp [hqt]
    · rw [List.eraseP_cons_of_neg (by simpa using hx)]
      by_cases hm : ts.contains x.1
      · have hm' : x.1 ∈ ts := List.elem_iff.mp hm
        rw [List.filter_cons_of_neg (by simp [hm']),
          List.filter_cons_of_neg (by simp [hm']), ih hnd.2]
      · have hm' : x.1 ∉ ts := fun hmem => hm (List.elem_iff.mpr hmem)
        rw [List.filter_cons_of_pos (by simp [hm']),
          List.filter_cons_of_pos (by simp [hx, hm']), ih hnd.2]

theorem filterMap_eq_filterMap_filter {β γ : Type} (f : β → Option γ) (g : β → Bool)
    (l : List β) (h : ∀ x ∈ l, g x = false → f x = Option.none) :
    l.filterMap f = (l.filter g).filterMap f := by
  induction l with
  | nil => simp
  | cons x tl ih =>
    have ih' := ih (fun y hy => h y (List.mem_cons_of_mem x hy))
    cases hg : g x
    · rw [List.filter_cons_of_neg (by simp [hg])]
      rw [List.filterMap_cons, h x (List.mem_cons_self x tl) hg, ih']
    · rw [List.filter_cons_of_pos (by simp [hg])]
      rw [List.filterMap_cons, List.filterMap_cons, ih']

theorem mem_dedupKeep (u : String) (ts : List String) :
    u ∈ dedupKeep ts ↔ u ∈ ts := by
  induction ts using dedupKeep.induct with
  | case1 => simp [dedupKeep]
  | case2 t ts ih =>
    simp only [dedupKeep, List.mem_cons]
    by_cases hu : u = t
    · simp [hu]
    · simp only [hu, false_or]
      rw [ih, List.mem_filter]
      simp [hu]

theorem dedupKeep_filter_comm (t : String) (ts : List String) :
    dedupKeep (ts.filter (fun u => u ≠ t)) = (dedupKeep ts).filter (fun u => u ≠ t) := by
  induction ts using dedupKeep.induct with
  | case1 => simp [dedupKeep]
  | case2 x ts ih =>
    by_cases hx : x = t
    · subst hx
      rw [List.filter_cons_of_neg (by simp)]
      simp only [dedupKeep]
      rw [List.filter_cons_of_neg (by simp)]
      rw [← ih]
      congr 1
      symm
      apply List.filter_eq_self.mpr
      intro a ha
      simpa using (List.mem_filter.mp ha).2
    · rw [List.filter_cons_of_pos (by simp [hx])]
      simp only [dedupKeep]
      rw [List.filter_cons_of_pos (by simp [hx])]
      rw [List.filter_comm, ih]

theorem order_go_eq_spec {α : Type} (ts : List String) :
    ∀ (ordered remaining : List (String × α)),
      (remaining.map Prod.fst).Nodup →
      order_go ordered remaining ts =
        ordered ++ (dedupKeep ts).filterMap (fun u => remaining.find? (fun q => q.1 == u))
          ++ remaining.filter (fun q => ¬ ts.contains q.1) := by
  induction ts with
  | nil =>
    intro ordered remaining hnd
    simp [order_go, dedupKeep]
  | cons t ts ih =>
    intro ordered remaining hnd
    simp only [order_go]
    cases hf : remaining.find? (fun p => p.1 == t) with
    | none =>
      have hnone : ∀ q ∈ remaining, ¬ (q.1 == t) = true := List.find?_eq_none.mp hf
      have hX : (dedupKeep (t :: ts)).filterMap
            (fun u => remaining.find? (fun q => q.1 == u))
          = (dedupKeep ts).filterMap (fun u => remaining.find? (fun q => q.1 == u)) := by
        simp only [dedupKeep, List.filterMap_cons, hf]
        rw [dedupKeep_filter_comm]
        refine (filterMap_eq_filterMap_filter _ _ _ ?_).symm
        intro x hx hfalse
        have hxt : x = t := by simpa using hfalse
        rw [hxt]
        exact hf
      have hY : remaining.filter (fun q => ¬ (t :: ts).contains q.1)
          = remaining.filter (fun q => ¬ ts.contains q.1) := by
        apply List.filter_congr
        intro q hq
        have hqt : q.1 ≠ t := by simpa using hnone q hq
        simp [List.contains_cons, hqt]
      rw [ih ordered remaining hnd, hX, hY]
    | some p =>
      have hnd' : ((remaining.eraseP (fun q => q.1 == t)).map Prod.fst).Nodup :=
        hnd.sublist ((List.eraseP_sublist _).map Prod.fst)
      show order_go (ordered ++ [p]) (remaining.eraseP (fun q => q.1 == t)) ts = _
      rw [ih (ordered ++ [p]) _ hnd']
      have hA : (dedupKeep ts).filterMap
            (fun u => (remaining.eraseP (fun q => q.1 == t)).find? (fun q => q.1 == u))
          = (dedupKeep (ts.filter (fun u => u ≠ t))).filterMap
            (fun u => remaining.find? (fun q => q.1 == u)) := by
        rw [filterMap_eq_filterMap_filter _ (fun u => u ≠ t) _ ?_]
        · rw [← dedupKeep_filter_comm]
          apply List.filterMap_congr
          intro u hu
          have hut : u ≠ t := by
            have hmem := (mem_dedupKeep u _).mp hu
            simpa using (List.mem_filter.mp hmem).2
          exact find?_eraseP_key_ne t u (fun h => hut h.symm) remaining
        · intro x hx hfalse
          have hxt : x = t := by simpa using hfalse
          rw [hxt]
          exact find?_eraseP_key_self t remaining hnd
      have hB : (remaining.eraseP (fun q => q.1 == t)).filter
            (fun q => ¬ ts.contains q.1)
          = remaining.filter (fun q => ¬ (t :: ts).contains q.1) := by
        rw [filter_eraseP_key t ts remaining hnd]
        apply List.filter_congr
        intro q hq
        simp [List.contains_cons]
      have hC : (dedupKeep (t :: ts)).filterMap
            (fun u => remaining.find? (fun q => q.1 == u))
          = p :: (dedupKeep (ts.filter (fun u => u ≠ t))).filterMap
            (fun u => remaining.find? (fun q => q.1 == u)) := by
        simp only [dedupKeep, List.filterMap_cons, hf]
      rw [hA, hB, hC]
      simp

theorem order_sections_eq_spec {α : Type} (s : List (String × α)) (pref : List String)
    (hnd : (s.map Prod.fst).Nodup) :
    order_sections s pref = specOrder s pref := by
  unfold order_sections specOrder
  by_cases hp : pref.isEmpty
  · obtain rfl : pref = [] := List.isEmpty_iff.mp hp
    simp [dedupKeep]
  · rw [if_neg hp, order_go_eq_spec pref [] s hnd]
    simp

/-! ## Entry and header field lemmas -/

theorem expFields_company (exp : Experience) :
    dictGet (expFields exp) "company" = Option.some (Value.str exp.company) := by
  simp [expFields, dictGet_set_if_present_optV, dictGet_cons]

theorem expFields_position (exp : Experience) :
    dictGet (expFields exp) "position" = Option.some (Value.str exp.position) := by
  simp [expFields, dictGet_set_if_present_optV, dictGet_cons]

theorem expFields_location (exp : Experience) :
    dictGet (expFields exp) "location" = exp.location.map Value.str := by
  simp [expFields, dictGet_set_if_present_optV, dictGet_cons]
  cases exp.location <;> simp [dictGet_nil]

theorem expFields_date (exp : Experience) :
    dictGet (expFields exp) "date" = exp.date.map Value.str := by
  simp [expFields, dictGet_set_if_present_optV, dictGet_cons]
  cases exp.date <;> simp [dictGet_nil]

theorem expFields_start_date (exp : Experience) :
    dictGet (expFields exp) "start_date" = exp.start_date.map Value.str := by
  simp [expFields, dictGet_set_if_present_optV, dictGet_cons]
  cases exp.start_date <;> simp [dictGet_nil]

theorem expFields_end_date (exp : Experience) :
    dictGet (expFields exp) "end_date" = exp.end_date.map Value.str := by
  simp [expFields, dictGet_set_if_present_optV, dictGet_cons]
  cases exp.end_date <;> simp [dictGet_nil]

theorem expFields_summary (exp : Experience) :
    dictGet (expFields exp) "summary" = exp.summary.map Value.str := by
  simp [expFields, dictGet_set_if_present_optV, dictGet_cons]
  cases exp.summary <;> simp [dictGet_nil]

theorem expFields_highlights (exp : Experience) :
    dictGet (expFields exp) "highlights" = Option.none := by
  simp [expFields, dictGet_set_if_present_optV, dictGet_cons, dictGet_nil]

theorem expEntry_get_of_ne (plan : LlmSelectionPlan) (exp : Experience) (k : String)
    (hk : k ≠ "highlights") :
    dictGet (expEntry plan exp) k = dictGet (expFields exp) k := by
  unfold expEntry
  rw [dictGet_withHighlights]
  simp [hk]

theorem expEntry_highlights (plan : LlmSelectionPlan) (exp : Experience) :
    dictGet (expEntry plan exp) "highlights" =
      (if (resolve_highlights exp.id exp.highlights plan).isEmpty then Option.none
       else Option.some (Value.arr
        ((resolve_highlights exp.id exp.highlights plan).map Value.str))) := by
  unfold expEntry
  rw [dictGet_withHighlights]
  by_cases h : (resolve_highlights exp.id exp.highlights plan).isEmpty <;>
    simp [h, expFields_highlights]

theorem eduFields_institution (edu : Education) :
    dictGet (eduFields edu) "institution" = Option.some (Value.str edu.institution) := by
  simp [eduFields, dictGet_set_if_present_optV, dictGet_cons]

theorem eduFields_area (edu : Education) :
    dictGet (eduFields edu) "area" = Option.some (Value.str edu.area) := by
  simp [eduFields, dictGet_set_if_present_optV, dictGet_cons]

theorem eduFields_degree (edu : Education) :
    dictGet (eduFields edu) "degree" = edu.degree.map Value.str := by
  simp [eduFields, dictGet_set_if_present_optV, dictGet_cons]
  cases edu.degree <;> simp [dictGet_nil]

theorem eduFields_location (edu : Education) :
    dictGet (eduFields edu) "location" = edu.location.map Value.str := by
  simp [eduFields, dictGet_set_if_present_optV, dictGet_cons]
  cases edu.location <;> simp [dictGet_nil]

theorem eduFields_date (edu : Education) :
    dictGet (eduFields edu) "date" = edu.date.map Value.str := by
  simp [eduFields, dictGet_set_if_present_optV, dictGet_cons]
  cases edu.date <;> simp [dictGet_nil]

theorem eduFields_start_date (edu : Education) :
    dictGet (eduFields edu) "start_date" = edu.start_date.map Value.str := by
  simp [eduFields, dictGet_set_if_present_optV, dictGet_cons]
  cases edu.start_date <;> simp [dictGet_nil]

theorem eduFields_end_date (edu : Education) :
    dictGet (eduFields edu) "end_date" = edu.end_date.map Value.str := by
  simp [eduFields, dictGet_set_if_present_optV, dictGet_cons]
  cases edu.end_date <;> simp [dictGet_nil]

theorem eduFields_summary (edu : Education) :
    dictGet (eduFields edu) "summary" = edu.summary.map Value.str := by
  simp [eduFields, dictGet_set_if_present_optV, dictGet_cons]
  cases edu.summary <;> simp [dictGet_nil]

theorem eduFields_highlights (edu : Education) :
    dictGet (eduFields edu) "highlights" = Option.none := by
  simp [eduFields, dictGet_set_if_present_optV, dictGet_cons, dictGet_nil]

theorem eduEntry_get_of_ne (plan : LlmSelectionPlan) (edu : Education) (k : String)
    (hk : k ≠ "highlights") :
    dictGet (eduEntry plan edu) k = dictGet (eduFields edu) k := by
  unfold eduEntry
  rw [dictGet_withHighlights]
  simp [hk]

theorem eduEntry_highlights (plan : LlmSelectionPlan) (edu : Education) :
    dictGet (eduEntry plan edu) "highlights" =
      (if (resolve_highlights edu.id edu.highlights plan).isEmpty then Option.none
       else Option.some (Value.arr
        ((resolve_highlights edu.id edu.highlights plan).map Value.str))) := by
  unfold eduEntry
  rw [dictGet_withHighlights]
  by_cases h : (resolve_highlights edu.id edu.highlights plan).isEmpty <;>
    simp [h, eduFields_highlights]

theorem projFields_name (proj : Project) :
    dictGet (projFields proj) "name" = Option.some (Value.str proj.name) := by
  simp [projFields, dictGet_set_if_present_optV, dictGet_cons]

theorem projFields_summary (proj : Project) :
    dictGet (projFields proj) "summary" = proj.summary.map Value.str := by
  simp [projFields, dictGet_set_if_present_optV, dictGet_cons]
  cases proj.summary <;> simp [dictGet_nil]

theorem projFields_location (proj : Project) :
    dictGet (projFields proj) "location" = proj.location.map Value.str := by
  simp [projFields, dictGet_set_if_present_optV, dictGet_cons]
  cases proj.location <;> simp [dictGet_nil]

theorem projFields_date (proj : Project) :
    dictGet (projFields proj) "date" = proj.date.map Value.str := by
  simp [projFields, dictGet_set_if_present_optV, dictGet_cons]
  cases proj.date <;> simp [dictGet_nil]

theorem projFields_start_date (proj : Project) :
    dictGet (projFields proj) "start_date" = proj.start_date.map Value.str := by
  simp [projFields, dictGet_set_if_present_optV, dictGet_cons]
  cases proj.start_date <;> simp [dictGet_nil]

theorem projFields_end_date (proj : Project) :
    dictGet (projFields proj) "end_date" = proj.end_date.map Value.str := by
  simp [projFields, dictGet_set_if_present_optV, dictGet_cons]
  cases proj.end_date <;> simp [dictGet_nil]

theorem projFields_highlights (proj : Project) :
    dictGet (projFields proj) "highlights" = Option.none := by
  simp [projFields, dictGet_set_if_present_optV, dictGet_cons, dictGet_nil]

theorem projEntry_get_of_ne (plan : LlmSelectionPlan) (proj : Project) (k : String)
    (hk : k ≠ "highlights") :
    dictGet (projEntry plan proj) k = dictGet (projFields proj) k := by
  unfold projEntry
  rw [dictGet_withHighlights]
  simp [hk]

theorem projEntry_highlights (plan : LlmSelectionPlan) (proj : Project) :
    dictGet (projEntry plan proj) "highlights" =
      (if (resolve_highlights proj.id proj.highlights plan).isEmpty then Option.none
       else Option.some (Value.arr
        ((resolve_highlights proj.id proj.highlights plan).map Value.str))) := by
  unfold projEntry
  rw [dictGet_withHighlights]
  by_cases h : (resolve_highlights proj.id proj.highlights plan).isEmpty <;>
    simp [h, projFields_highlights]

theorem apply_header_get (profile : Profile) (k : String) :
    dictGet (apply_header [] profile) k =
      (if k = "social_networks" ∧ ¬ profile.meta.socials.isEmpty then
        Option.some (Value.arr (profile.meta.socials.map (fun s =>
          Value.obj [("network", Value.str s.network), ("username", Value.str s.username)])))
      else if k = "website" ∧ profile.meta.website.isSome then
        profile.meta.website.map Value.str
      else if k = "phone" ∧ profile.meta.phone.isSome then
        profile.meta.phone.map Value.str
      else if k = "email" ∧ profile.meta.email.isSome then
        profile.meta.email.map Value.str
      else if k = "location" ∧ profile.meta.location.isSome then
        profile.meta.location.map Value.str
      else if k = "headline" ∧ profile.meta.headline.isSome then
        profile.meta.headline.map Value.str
      else if k = "name" then Option.some (Value.str profile.meta.name)
      else Option.none) := by
  unfold apply_header
  by_cases hs : profile.meta.socials.isEmpty <;>
    by_cases hk1 : k = "social_networks" <;>
    by_cases hk2 : k = "website" <;>
    by_cases hk3 : k = "phone" <;>
    by_cases hk4 : k = "email" <;>
    by_cases hk5 : k = "location" <;>
    by_cases hk6 : k = "headline" <;>
    by_cases hk7 : k = "name" <;>
    simp_all [dictGet_set_if_present_optV, dictGet_dictSet, dictGet_nil] <;>
    first
      | (cases profile.meta.website <;> simp_all)
      | (cases profile.meta.phone <;> simp_all)
      | (cases profile.meta.email <;> simp_all)
      | (cases profile.meta.location <;> simp_all)
      | (cases profile.meta.headline <;> simp_all)

/-! ## Resolve and selection lemmas -/

theorem resolve_highlights_id_none (hs : List String) (plan : LlmSelectionPlan) :
    resolve_highlights Option.none hs plan = hs := rfl

theorem resolve_highlights_id_empty (hs : List String) (plan : LlmSelectionPlan) :
    resolve_highlights (Option.some "") hs plan = hs := by
  simp [resolve_highlights]

theorem resolve_highlights_found (i : String) (hs ov : List String)
    (plan : LlmSelectionPlan) (hi : i ≠ "")
    (hov : overridesLookup plan.bullet_overrides i = Option.some ov) :
    resolve_highlights (Option.some i) hs plan = ov := by
  simp [resolve_highlights, hi, hov]

theorem resolve_highlights_notfound (i : String) (hs : List String)
    (plan : LlmSelectionPlan)
    (hov : overridesLookup plan.bullet_overrides i = Option.none) :
    resolve_highlights (Option.some i) hs plan = hs := by
  by_cases hi : i = "" <;> simp [resolve_highlights, hi, hov]

theorem select_items_eq_spec {α : Type} (getId : α → Option String) (items : List α)
    (ids : List String) : select_items getId items ids = specSelect getId items ids := by
  unfold select_items specSelect
  by_cases h : ids = []
  · simp [h]
  · have h2 : ¬ ids.isEmpty := by simpa [List.isEmpty_iff] using h
    simp [h, h2]

/-! ## Build-level lemmas -/

theorem cvObjOf_build (profile : Profile) (plan : LlmSelectionPlan) :
    cvObjOf (build_cv_dict profile plan) =
      (if (order_sections (build_sections profile plan) plan.section_order).isEmpty
       then apply_header [] profile
       else dictSet (apply_header [] profile) "sections"
         (Value.obj (order_sections (build_sections profile plan) plan.section_order))) := by
  by_cases h : (order_sections (build_sections profile plan) plan.section_order).isEmpty <;>
    simp [build_cv_dict, cvObjOf, dictGet_cons, h]

theorem apply_header_sections (profile : Profile) :
    dictGet (apply_header [] profile) "sections" = Option.none := by
  rw [apply_header_get]
  simp

theorem cvObj_get_of_ne_sections (profile : Profile) (plan : LlmSelectionPlan)
    (k : String) (hk : k ≠ "sections") :
    dictGet (cvObjOf (build_cv_dict profile plan)) k = dictGet (apply_header [] profile) k := by
  rw [cvObjOf_build]
  by_cases h : (order_sections (build_sections profile plan) plan.section_order).isEmpty
  · simp [h]
  · simp [h, dictGet_dictSet, hk]

theorem cvObj_sections (profile : Profile) (plan : LlmSelectionPlan) :
    dictGet (cvObjOf (build_cv_dict profile plan)) "sections" =
      (if (order_sections (build_sections profile plan) plan.section_order).isEmpty
       then Option.none
       else Option.some (Value.obj
        (order_sections (build_sections profile plan) plan.section_order))) := by
  rw [cvObjOf_build]
  by_cases h : (order_sections (build_sections profile plan) plan.section_order).isEmpty
  · simp [h, apply_header_sections]
  · simp [h, dictGet_dictSet]

theorem outSections_build (profile : Profile) (plan : LlmSelectionPlan) :
    outSections (build_cv_dict profile plan) =
      order_sections (build_sections profile plan) plan.section_order := by
  unfold outSections
  rw [cvObj_sections]
  by_cases h : (order_sections (build_sections profile plan) plan.section_order).isEmpty
  · rw [if_pos h]
    exact (List.isEmpty_iff.mp h).symm
  · rw [if_neg h]

theorem build_sections_eq (profile : Profile) (plan : LlmSelectionPlan) :
    build_sections profile plan =
      (if (map_experience profile plan).isEmpty then []
       else [("Experience", secVal (map_experience profile plan))])
      ++ (if (map_projects profile plan).isEmpty then []
       else [("Projects", secVal (map_projects profile plan))])
      ++ (if (map_education profile plan).isEmpty then []
       else [("Education", secVal (map_education profile plan))])
      ++ (if (map_skills profile plan).isEmpty then []
       else [("Skills", secVal (map_skills profile plan))]) := by
  unfold build_sections
  by_cases h1 : (map_experience profile plan).isEmpty <;>
  by_cases h2 : (map_projects profile plan).isEmpty <;>
  by_cases h3 : (map_education profile plan).isEmpty <;>
  by_cases h4 : (map_skills profile plan).isEmpty <;>
    simp [h1, h2, h3, h4, dictSet, hasKey]

theorem build_sections_keys_nodup (profile : Profile) (plan : LlmSelectionPlan) :
    ((build_sections profile plan).map Prod.fst).Nodup := by
  rw [build_sections_eq]
  by_cases h1 : (map_experience profile plan).isEmpty <;>
  by_cases h2 : (map_projects profile plan).isEmpty <;>
  by_cases h3 : (map_education profile plan).isEmpty <;>
  by_cases h4 : (map_skills profile plan).isEmpty <;>
    simp [h1, h2, h3, h4]

theorem hasKey_build_sections_exp (profile : Profile) (plan : LlmSelectionPlan) :
    hasKey (build_sections profile plan) "Experience"
      = !(map_experience profile plan).isEmpty := by
  rw [build_sections_eq]
  by_cases h1 : (map_experience profile plan).isEmpty <;>
  by_cases h2 : (map_projects profile plan).isEmpty <;>
  by_cases h3 : (map_education profile plan).isEmpty <;>
  by_cases h4 : (map_skills profile plan).isEmpty <;>
    simp [h1, h2, h3, h4, hasKey]

theorem hasKey_build_sections_proj (profile : Profile) (plan : LlmSelectionPlan) :
    hasKey (build_sections profile plan) "Projects"
      = !(map_projects profile plan).isEmpty := by
  rw [build_sections_eq]
  by_cases h1 : (map_experience profile plan).isEmpty <;>
  by_cases h2 : (map_projects profile plan).isEmpty <;>
  by_cases h3 : (map_education profile plan).isEmpty <;>
  by_cases h4 : (map_skills profile plan).isEmpty <;>
    simp [h1, h2, h3, h4, hasKey]

theorem hasKey_build_sections_edu (profile : Profile) (plan : LlmSelectionPlan) :
    hasKey (build_sections profile plan) "Education"
      = !(map_education profile plan).isEmpty := by
  rw [build_sections_eq]
  by_cases h1 : (map_experience profile plan).isEmpty <;>
  by_cases h2 : (map_projects profile plan).isEmpty <;>
  by_cases h3 : (map_education profile plan).isEmpty <;>
  by_cases h4 : (map_skills profile plan).isEmpty <;>
    simp [h1, h2, h3, h4, hasKey]

theorem hasKey_build_sections_skills (profile : Profile) (plan : LlmSelectionPlan) :
    hasKey (build_sections profile plan) "Skills"
      = !(map_skills profile plan).isEmpty := by
  rw [build_sections_eq]
  by_cases h1 : (map_experience profile plan).isEmpty <;>
  by_cases h2 : (map_projects profile plan).isEmpty <;>
  by_cases h3 : (map_education profile plan).isEmpty <;>
  by_cases h4 : (map_skills profile plan).isEmpty <;>
    simp [h1, h2, h3, h4, hasKey]

theorem hasKey_build_sections_canonical (profile : Profile) (plan : LlmSelectionPlan)
    (k : String) (h : hasKey (build_sections profile plan) k = true) :
    k = "Experience" ∨ k = "Projects" ∨ k = "Education" ∨ k = "Skills" := by
  rw [build_sections_eq] at h
  by_cases h1 : (map_experience profile plan).isEmpty <;>
  by_cases h2 : (map_projects profile plan).isEmpty <;>
  by_cases h3 : (map_education profile plan).isEmpty <;>
  by_cases h4 : (map_skills profile plan).isEmpty <;>
    simp [h1, h2, h3, h4, hasKey] at h <;>
    tauto

/-! ## Claim theorems -/

/-- C1: for each of the experience, education and project categories, an empty
selected-identifier list makes the mapper include all profile entries of that
category in their original order, and a non-empty list makes it include
exactly the entries whose identifier is a member of the list, preserving the
profile's original relative order; skill selection follows the same
empty-means-all policy keyed by skill label. -/
theorem C1_empty_selection_means_all (profile : Profile) (plan : LlmSelectionPlan) :
    map_experience profile plan
      = (specSelect Experience.id profile.experience plan.selected_experience_ids).map
          (expEntry plan)
  ∧ map_education profile plan
      = (specSelect Education.id profile.education plan.selected_education_ids).map
          (eduEntry plan)
  ∧ map_projects profile plan
      = (specSelect Project.id profile.projects plan.selected_project_ids).map
          (projEntry plan)
  ∧ map_skills profile plan
      = (if plan.selected_skill_labels = [] then profile.skills
         else profile.skills.filter
           (fun s => plan.selected_skill_labels.contains s.label)).map skillEntry
  ∧ (map_experience profile plan ≠ [] →
      ("Experience", secVal (map_experience profile plan))
        ∈ outSections (build_cv_dict profile plan))
  ∧ (map_projects profile plan ≠ [] →
      ("Projects", secVal (map_projects profile plan))
        ∈ outSections (build_cv_dict profile plan))
  ∧ (map_education profile plan ≠ [] →
      ("Education", secVal (map_education profile plan))
        ∈ outSections (build_cv_dict profile plan))
  ∧ (map_skills profile plan ≠ [] →
      ("Skills", secVal (map_skills profile plan))
        ∈ outSections (build_cv_dict profile plan)) := by
  have hmem : ∀ x : String × Value, x ∈ build_sections profile plan →
      x ∈ outSections (build_cv_dict profile plan) := by
    intro x hx
    rw [outSections_build]
    exact (order_sections_perm (build_sections profile plan)
      plan.section_order).mem_iff.mpr hx
  refine ⟨?_, ?_, ?_, ?_, ?_, ?_, ?_, ?_⟩
  · unfold map_experience
    rw [select_items_eq_spec]
  · unfold map_education
    rw [select_items_eq_spec]
  · unfold map_projects
    rw [select_items_eq_spec]
  · unfold map_skills
    by_cases h : plan.selected_skill_labels = []
    · simp [h]
    · have h2 : ¬ plan.selected_skill_labels.isEmpty := by
        simpa [List.isEmpty_iff] using h
      simp [h, h2]
  · intro h
    have h2 : ¬ (map_experience profile plan).isEmpty := by
      simpa [List.isEmpty_iff] using h
    apply hmem
    rw [build_sections_eq]
    simp [h2]
  · intro h
    have h2 : ¬ (map_projects profile plan).isEmpty := by
      simpa [List.isEmpty_iff] using h
    apply hmem
    rw [build_sections_eq]
    simp [h2]
  · intro h
    have h2 : ¬ (map_education profile plan).isEmpty := by
      simpa [List.isEmpty_iff] using h
    apply hmem
    rw [build_sections_eq]
    simp [h2]
  · intro h
    have h2 : ¬ (map_skills profile plan).isEmpty := by
      simpa [List.isEmpty_iff] using h
    apply hmem
    rw [build_sections_eq]
    simp [h2]

/-- C1 witness: for the one-entry-per-category profile and the
nothing-selected plan, all four sections of the built cv carry the complete
mapped entry lists. -/
theorem C1_empty_selection_means_all_witness :
    ("Experience", secVal (map_experience profileFullW planEmptyW))
      ∈ outSections (build_cv_dict profileFullW planEmptyW)
  ∧ ("Projects", secVal (map_projects profileFullW planEmptyW))
      ∈ outSections (build_cv_dict profileFullW planEmptyW)
  ∧ ("Education", secVal (map_education profileFullW planEmptyW))
      ∈ outSections (build_cv_dict profileFullW planEmptyW)
  ∧ ("Skills", secVal (map_skills profileFullW planEmptyW))
      ∈ outSections (build_cv_dict profileFullW planEmptyW) := by
  have hC := C1_empty_selection_means_all profileFullW planEmptyW
  refine ⟨?_, ?_, ?_, ?_⟩
  · exact hC.2.2.2.2.1 (by
      intro hcontra
      simp [map_experience, select_items, profileFullW, planEmptyW] at hcontra)
  · exact hC.2.2.2.2.2.1 (by
      intro hcontra
      simp [map_projects, select_items, profileFullW, planEmptyW] at hcontra)
  · exact hC.2.2.2.2.2.2.1 (by
      intro hcontra
      simp [map_education, select_items, profileFullW, planEmptyW] at hcontra)
  · exact hC.2.2.2.2.2.2.2 (by
      intro hcontra
      simp [map_skills, profileFullW, planEmptyW] at hcontra)

/-- C2: for every selected entry whose non-empty identifier is a key of the
plan's bullet_overrides, the mapped highlights equal exactly the override list
(written only when non-empty, like every highlight list); an entry with an
absent or empty identifier, or one whose identifier is not a key, keeps its
original highlight list; and every key other than highlights of a mapped
entry agrees with the plan-independent field mapping of the profile entry. -/
theorem C2_bullet_override_replacement (plan : LlmSelectionPlan) :
    (∀ (exp : Experience) (i : String) (ov : List String),
      exp.id = Option.some i → i ≠ "" →
      overridesLookup plan.bullet_overrides i = Option.some ov →
      dictGet (expEntry plan exp) "highlights"
        = (if ov.isEmpty then Option.none
           else Option.some (Value.arr (ov.map Value.str))))
  ∧ (∀ exp : Experience,
      (exp.id = Option.none ∨ exp.id = Option.some ""
        ∨ (∀ i, exp.id = Option.some i →
            overridesLookup plan.bullet_overrides i = Option.none)) →
      dictGet (expEntry plan exp) "highlights"
        = (if exp.highlights.isEmpty then Option.none
           else Option.some (Value.arr (exp.highlights.map Value.str))))
  ∧ (∀ (exp : Experience) (k : String), k ≠ "highlights" →
      dictGet (expEntry plan exp) k = dictGet (expFields exp) k)
  ∧ (∀ (edu : Education) (i : String) (ov : List String),
      edu.id = Option.some i → i ≠ "" →
      overridesLookup plan.bullet_overrides i = Option.some ov →
      dictGet (eduEntry plan edu) "highlights"
        = (if ov.isEmpty then Option.none
           else Option.some (Value.arr (ov.map Value.str))))
  ∧ (∀ edu : Education,
      (edu.id = Option.none ∨ edu.id = Option.some ""
        ∨ (∀ i, edu.id = Option.some i →
            overridesLookup plan.bullet_overrides i = Option.none)) →
      dictGet (eduEntry plan edu) "highlights"
        = (if edu.highlights.isEmpty then Option.none
           else Option.some (Value.arr (edu.highlights.map Value.str))))
  ∧ (∀ (edu : Education) (k : String), k ≠ "highlights" →
      dictGet (eduEntry plan edu) k = dictGet (eduFields edu) k)
  ∧ (∀ (proj : Project) (i : String) (ov : List String),
      proj.id = Option.some i → i ≠ "" →
      overridesLookup plan.bullet_overrides i = Option.some ov →
      dictGet (projEntry plan proj) "highlights"
        = (if ov.isEmpty then Option.none
           else Option.some (Value.arr (ov.map Value.str))))
  ∧ (∀ proj : Project,
      (proj.id = Option.none ∨ proj.id = Option.some ""
        ∨ (∀ i, proj.id = Option.some i →
            overridesLookup plan.bullet_overrides i = Option.none)) →
      dictGet (projEntry plan proj) "highlights"
        = (if proj.highlights.isEmpty then Option.none
           else Option.some (Value.arr (proj.highlights.map Value.str))))
  ∧ (∀ (proj : Project) (k : String), k ≠ "highlights" →
      dictGet (projEntry plan proj) k = dictGet (projFields proj) k) := by
  refine ⟨?_, ?_, ?_, ?_, ?_, ?_, ?_, ?_, ?_⟩
  · intro exp i ov hid hi hov
    rw [expEntry_highlights, hid, resolve_highlights_found i _ ov plan hi hov]
  · intro exp h
    rw [expEntry_highlights]
    rcases h with h | h | h
    · rw [h, resolve_highlights_id_none]
    · rw [h, resolve_highlights_id_empty]
    · cases hid : exp.id with
      | none => rw [resolve_highlights_id_none]
      | some i => rw [resolve_highlights_notfound i _ plan (h i hid)]
  · intro exp k hk
    exact expEntry_get_of_ne plan exp k hk
  · intro edu i ov hid hi hov
    rw [eduEntry_highlights, hid, resolve_highlights_found i _ ov plan hi hov]
  · intro edu h
    rw [eduEntry_highlights]
    rcases h with h | h | h
    · rw [h, resolve_highlights_id_none]
    · rw [h, resolve_highlights_id_empty]
    · cases hid : edu.id with
      | none => rw [resolve_highlights_id_none]
      | some i => rw [resolve_highlights_notfound i _ plan (h i hid)]
  · intro edu k hk
    exact eduEntry_get_of_ne plan edu k hk
  · intro proj i ov hid hi hov
    rw [projEntry_highlights, hid, resolve_highlights_found i _ ov plan hi hov]
  · intro proj h
    rw [projEntry_highlights]
    rcases h with h | h | h
    · rw [h, resolve_highlights_id_none]
    · rw [h, resolve_highlights_id_empty]
    · cases hid : proj.id with
      | none => rw [resolve_highlights_id_none]
      | some i => rw [resolve_highlights_notfound i _ plan (h i hid)]
  · intro proj k hk
    exact projEntry_get_of_ne plan proj k hk

/-- C2 witness: on the concrete entries e1, d1, p1 with overrides x, y, z,
the mapped highlight lists are exactly the overrides, and the
company field of the experience entry is untouched. -/
theorem C2_bullet_override_replacement_witness :
    dictGet (expEntry planW exW) "highlights"
      = Option.some (Value.arr [Value.str "x"])
  ∧ dictGet (eduEntry planW eduW) "highlights"
      = Option.some (Value.arr [Value.str "y"])
  ∧ dictGet (projEntry planW projW) "highlights"
      = Option.some (Value.arr [Value.str "z"])
  ∧ dictGet (expEntry planW exW) "company" = Option.some (Value.str "Acme") := by
  refine ⟨?_, ?_, ?_, ?_⟩
  · have h := (C2_bullet_override_replacement planW).1 exW "e1" ["x"]
      rfl (by decide) rfl
    simpa using h
  · have h := (C2_bullet_override_replacement planW).2.2.2.1 eduW "d1" ["y"]
      rfl (by decide) rfl
    simpa using h
  · have h := (C2_bullet_override_replacement planW).2.2.2.2.2.2.1 projW "p1" ["z"]
      rfl (by decide) rfl
    simpa using h
  · have h := (C2_bullet_override_replacement planW).2.2.1 exW "company" (by decide)
    rw [h, expFields_company]
    rfl

/-- C3: in every mapped entry and in the header, each optional field is
present exactly when its source value is present (and, for the highlight
list, non-empty), while the required fields company+position,
institution+area, project name, skill label+details and the header name are
always written. -/
theorem C3_field_omission_rule (profile : Profile) (plan : LlmSelectionPlan)
    (exp : Experience) (edu : Education) (proj : Project) (skill : Skill) :
    dictGet (expEntry plan exp) "company" = Option.some (Value.str exp.company)
  ∧ dictGet (expEntry plan exp) "position" = Option.some (Value.str exp.position)
  ∧ dictGet (expEntry plan exp) "location" = exp.location.map Value.str
  ∧ dictGet (expEntry plan exp) "date" = exp.date.map Value.str
  ∧ dictGet (expEntry plan exp) "start_date" = exp.start_date.map Value.str
  ∧ dictGet (expEntry plan exp) "end_date" = exp.end_date.map Value.str
  ∧ dictGet (expEntry plan exp) "summary" = exp.summary.map Value.str
  ∧ dictGet (expEntry plan exp) "highlights"
      = (if (resolve_highlights exp.id exp.highlights plan).isEmpty then Option.none
         else Option.some (Value.arr
          ((resolve_highlights exp.id exp.highlights plan).map Value.str)))
  ∧ dictGet (eduEntry plan edu) "institution" = Option.some (Value.str edu.institution)
  ∧ dictGet (eduEntry plan edu) "area" = Option.some (Value.str edu.area)
  ∧ dictGet (eduEntry plan edu) "degree" = edu.degree.map Value.str
  ∧ dictGet (eduEntry plan edu) "location" = edu.location.map Value.str
  ∧ dictGet (eduEntry plan edu) "date" = edu.date.map Value.str
  ∧ dictGet (eduEntry plan edu) "start_date" = edu.start_date.map Value.str
  ∧ dictGet (eduEntry plan edu) "end_date" = edu.end_date.map Value.str
  ∧ dictGet (eduEntry plan edu) "summary" = edu.summary.map Value.str
  ∧ dictGet (eduEntry plan edu) "highlights"
      = (if (resolve_highlights edu.id edu.highlights plan).isEmpty then Option.none
         else Option.some (Value.arr
          ((resolve_highlights edu.id edu.highlights plan).map Value.str)))
  ∧ dictGet (projEntry plan proj) "name" = Option.some (Value.str proj.name)
  ∧ dictGet (projEntry plan proj) "summary" = proj.summary.map Value.str
  ∧ dictGet (projEntry plan proj) "location" = proj.location.map Value.str
  ∧ dictGet (projEntry plan proj) "date" = proj.date.map Value.str
  ∧ dictGet (projEntry plan proj) "start_date" = proj.start_date.map Value.str
  ∧ dictGet (projEntry plan proj) "end_date" = proj.end_date.map Value.str
  ∧ dictGet (projEntry plan proj) "highlights"
      = (if (resolve_highlights proj.id proj.highlights plan).isEmpty then Option.none
         else Option.some (Value.arr
          ((resolve_highlights proj.id proj.highlights plan).map Value.str)))
  ∧ skillEntry skill = [("label", Value.str skill.label), ("details", Value.str skill.details)]
  ∧ dictGet (apply_header [] profile) "name" = Option.some (Value.str profile.meta.name)
  ∧ dictGet (apply_header [] profile) "headline" = profile.meta.headline.map Value.str
  ∧ dictGet (apply_header [] profile) "location" = profile.meta.location.map Value.str
  ∧ dictGet (apply_header [] profile) "email" = profile.meta.email.map Value.str
  ∧ dictGet (apply_header [] profile) "phone" = profile.meta.phone.map Value.str
  ∧ dictGet (apply_header [] profile) "website" = profile.meta.website.map Value.str := by
  refine ⟨?_, ?_, ?_, ?_, ?_, ?_, ?_, ?_, ?_, ?_, ?_, ?_, ?_, ?_, ?_, ?_, ?_, ?_, ?_,
    ?_, ?_, ?_, ?_, ?_, ?_, ?_, ?_, ?_, ?_, ?_, ?_⟩
  · rw [expEntry_get_of_ne _ _ _ (by decide), expFields_company]
  · rw [expEntry_get_of_ne _ _ _ (by decide), expFields_position]
  · rw [expEntry_get_of_ne _ _ _ (by decide), expFields_location]
  · rw [expEntry_get_of_ne _ _ _ (by decide), expFields_date]
  · rw [expEntry_get_of_ne _ _ _ (by decide), expFields_start_date]
  · rw [expEntry_get_of_ne _ _ _ (by decide), expFields_end_date]
  · rw [expEntry_get_of_ne _ _ _ (by decide), expFields_summary]
  · exact expEntry_highlights plan exp
  · rw [eduEntry_get_of_ne _ _ _ (by decide), eduFields_institution]
  · rw [eduEntry_get_of_ne _ _ _ (by decide), eduFields_area]
  · rw [eduEntry_get_of_ne _ _ _ (by decide), eduFields_degree]
  · rw [eduEntry_get_of_ne _ _ _ (by decide), eduFields_location]
  · rw [eduEntry_get_of_ne _ _ _ (by decide), eduFields_date]
  · rw [eduEntry_get_of_ne _ _ _ (by decide), eduFields_start_date]
  · rw [eduEntry_get_of_ne _ _ _ (by decide), eduFields_end_date]
  · rw [eduEntry_get_of_ne _ _ _ (by decide), eduFields_summary]
  · exact eduEntry_highlights plan edu
  · rw [projEntry_get_of_ne _ _ _ (by decide), projFields_name]
  · rw [projEntry_get_of_ne _ _ _ (by decide), projFields_summary]
  · rw [projEntry_get_of_ne _ _ _ (by decide), projFields_location]
  · rw [projEntry_get_of_ne _ _ _ (by decide), projFields_date]
  · rw [projEntry_get_of_ne _ _ _ (by decide), projFields_start_date]
  · rw [projEntry_get_of_ne _ _ _ (by decide), projFields_end_date]
  · exact projEntry_highlights plan proj
  · rfl
  · rw [apply_header_get]
    simp
  · rw [apply_header_get]
    cases profile.meta.headline <;> simp
  · rw [apply_header_get]
    cases profile.meta.location <;> simp
  · rw [apply_header_get]
    cases profile.meta.email <;> simp
  · rw [apply_header_get]
    cases profile.meta.phone <;> simp
  · rw [apply_header_get]
    cases profile.meta.website <;> simp

/-- C4: a section key appears in the sections of the built cv exactly when
that category has at least one mapped entry, every section key is one of the
four canonical titles, and in particular a profile with zero skills and a
plan with non-empty selected skill labels yields no Skills key. -/
theorem C4_empty_sections_omitted (profile : Profile) (plan : LlmSelectionPlan) :
    hasKey (outSections (build_cv_dict profile plan)) "Experience"
      = !(map_experience profile plan).isEmpty
  ∧ hasKey (outSections (build_cv_dict profile plan)) "Projects"
      = !(map_projects profile plan).isEmpty
  ∧ hasKey (outSections (build_cv_dict profile plan)) "Education"
      = !(map_education profile plan).isEmpty
  ∧ hasKey (outSections (build_cv_dict profile plan)) "Skills"
      = !(map_skills profile plan).isEmpty
  ∧ (∀ k, hasKey (outSections (build_cv_dict profile plan)) k = true →
      k = "Experience" ∨ k = "Projects" ∨ k = "Education" ∨ k = "Skills")
  ∧ (profile.skills = [] → plan.selected_skill_labels ≠ [] →
      hasKey (outSections (build_cv_dict profile plan)) "Skills" = false) := by
  have hkey : ∀ k, hasKey (outSections (build_cv_dict profile plan)) k
      = hasKey (build_sections profile plan) k := by
    intro k
    rw [outSections_build]
    exact hasKey_congr_perm
      (order_sections_perm (build_sections profile plan) plan.section_order) k
  refine ⟨?_, ?_, ?_, ?_, ?_, ?_⟩
  · rw [hkey]
    exact hasKey_build_sections_exp profile plan
  · rw [hkey]
    exact hasKey_build_sections_proj profile plan
  · rw [hkey]
    exact hasKey_build_sections_edu profile plan
  · rw [hkey]
    exact hasKey_build_sections_skills profile plan
  · intro k h
    rw [hkey] at h
    exact hasKey_build_sections_canonical profile plan k h
  · intro hsk _
    rw [hkey, hasKey_build_sections_skills]
    have hmap : map_skills profile plan = [] := by
      simp [map_skills, hsk]
    simp [hmap]

/-- C4 witness: the empty profile with the skills-only plan produces no
Skills key and indeed no section key at all. -/
theorem C4_empty_sections_omitted_witness :
    hasKey (outSections (build_cv_dict profileEmptyW planSkillsW)) "Skills" = false := by
  have h := (C4_empty_sections_omitted profileEmptyW planSkillsW).2.2.2.2.2
    rfl (by decide)
  exact h

/-- C5: ordering sections with an empty preferred list is the identity, the
ordering step always permutes the sections (never adds or removes one), with
duplicate-free keys it produces exactly the preferred sections first in
preferred order followed by the remaining sections in original order, and the
spec's concrete scenario reorders the four canonical sections as stated. -/
theorem C5_section_ordering (s : List (String × Value)) (pref : List String)
    (hnd : (s.map Prod.fst).Nodup) :
    order_sections s [] = s
  ∧ (order_sections s pref).Perm s
  ∧ order_sections s pref = specOrder s pref
  ∧ (∀ e pj ed sk : Value,
      order_sections [("Experience", e), ("Projects", pj), ("Education", ed), ("Skills", sk)]
        ["Skills", "Education"]
      = [("Skills", sk), ("Education", ed), ("Experience", e), ("Projects", pj)]) := by
  refine ⟨rfl, order_sections_perm s pref, order_sections_eq_spec s pref hnd, ?_⟩
  intro e pj ed sk
  rfl

/-- C5 witness: a concrete two-section ordering follows the characterization,
moving the Skills section first. -/
theorem C5_section_ordering_witness :
    order_sections [("Experience", Value.str "a"), ("Skills", Value.str "b")] ["Skills"]
      = [("Skills", Value.str "b"), ("Experience", Value.str "a")] := by
  have h := (C5_section_ordering
    [("Experience", Value.str "a"), ("Skills", Value.str "b")] ["Skills"]
    (by simp)).2.2.1
  rw [h]
  simp [specOrder, dedupKeep]

/-- C6: the assembler always outputs the four top-level keys cv, design,
locale, settings in that order; each of design, locale and settings equals the
supplied override when one is given and the provider's default otherwise; and
the cv block is the input body's cv mapping when present, else an empty
mapping. -/
theorem C6_assemble_defaults_and_overrides (dp : DefaultsProvider) (cv_dict : Dict)
    (design locale settings : Option Dict) :
    (assemble_rendercv_document dp cv_dict design locale settings).map Prod.fst
      = ["cv", "design", "locale", "settings"]
  ∧ dictGet (assemble_rendercv_document dp cv_dict design locale settings) "design"
      = Option.some (Value.obj (design.getD dp.get_default_design))
  ∧ dictGet (assemble_rendercv_document dp cv_dict design locale settings) "locale"
      = Option.some (Value.obj (locale.getD dp.get_default_locale))
  ∧ dictGet (assemble_rendercv_document dp cv_dict design locale settings) "settings"
      = Option.some (Value.obj (settings.getD dp.get_default_settings))
  ∧ (∀ o, dictGet cv_dict "cv" = Option.some (Value.obj o) →
      dictGet (assemble_rendercv_document dp cv_dict design locale settings) "cv"
        = Option.some (Value.obj o))
  ∧ (dictGet cv_dict "cv" = Option.none →
      dictGet (assemble_rendercv_document dp cv_dict design locale settings) "cv"
        = Option.some (Value.obj [])) := by
  unfold assemble_rendercv_document
  refine ⟨?_, ?_, ?_, ?_, ?_, ?_⟩
  · simp [dictSet, hasKey]
  · simp [dictGet_dictSet]
  · simp [dictGet_dictSet]
  · simp [dictGet_dictSet]
  · intro o ho
    simp [dictGet_dictSet, dictGet_cons, ho]
  · intro ho
    simp [dictGet_dictSet, dictGet_cons, ho]

/-- C6 witness: assembling the concrete body with no overrides keeps its cv
block and substitutes the three concrete defaults; assembling an empty body
yields an empty cv block. -/
theorem C6_assemble_defaults_and_overrides_witness :
    dictGet (assemble_rendercv_document dpW bodyW Option.none Option.none Option.none) "cv"
      = Option.some (Value.obj [("name", Value.str "Ada")])
  ∧ dictGet (assemble_rendercv_document dpW bodyW Option.none Option.none Option.none)
      "design" = Option.some (Value.obj [("theme", Value.str "classic")])
  ∧ dictGet (assemble_rendercv_document dpW [] Option.none Option.none Option.none) "cv"
      = Option.some (Value.obj []) := by
  refine ⟨?_, ?_, ?_⟩
  · exact (C6_assemble_defaults_and_overrides dpW bodyW
      Option.none Option.none Option.none).2.2.2.2.1 [("name", Value.str "Ada")] rfl
  · exact (C6_assemble_defaults_and_overrides dpW bodyW
      Option.none Option.none Option.none).2.1
  · exact (C6_assemble_defaults_and_overrides dpW []
      Option.none Option.none Option.none).2.2.2.2.2 rfl

/-- C8: the built cv maps the profile name verbatim, copies the optional
header fields exactly when present, and contains the social-network list, in
original order, exactly when the profile has at least one social entry. -/
theorem C8_header_mapping (profile : Profile) (plan : LlmSelectionPlan) :
    dictGet (cvObjOf (build_cv_dict profile plan)) "name"
      = Option.some (Value.str profile.meta.name)
  ∧ dictGet (cvObjOf (build_cv_dict profile plan)) "headline"
      = profile.meta.headline.map Value.str
  ∧ dictGet (cvObjOf (build_cv_dict profile plan)) "location"
      = profile.meta.location.map Value.str
  ∧ dictGet (cvObjOf (build_cv_dict profile plan)) "email"
      = profile.meta.email.map Value.str
  ∧ dictGet (cvObjOf (build_cv_dict profile plan)) "phone"
      = profile.meta.phone.map Value.str
  ∧ dictGet (cvObjOf (build_cv_dict profile plan)) "website"
      = profile.meta.website.map Value.str
  ∧ dictGet (cvObjOf (build_cv_dict profile plan)) "social_networks"
      = (if profile.meta.socials.isEmpty then Option.none
         else Option.some (Value.arr (profile.meta.socials.map (fun s =>
           Value.obj [("network", Value.str s.network),
             ("username", Value.str s.username)])))) := by
  refine ⟨?_, ?_, ?_, ?_, ?_, ?_, ?_⟩
  · rw [cvObj_get_of_ne_sections _ _ _ (by decide), apply_header_get]
    simp
  · rw [cvObj_get_of_ne_sections _ _ _ (by decide), apply_header_get]
    cases profile.meta.headline <;> simp
  · rw [cvObj_get_of_ne_sections _ _ _ (by decide), apply_header_get]
    cases profile.meta.location <;> simp
  · rw [cvObj_get_of_ne_sections _ _ _ (by decide), apply_header_get]
    cases profile.meta.email <;> simp
  · rw [cvObj_get_of_ne_sections _ _ _ (by decide), apply_header_get]
    cases profile.meta.phone <;> simp
  · rw [cvObj_get_of_ne_sections _ _ _ (by decide), apply_header_get]
    cases profile.meta.website <;> simp
  · rw [cvObj_get_of_ne_sections _ _ _ (by decide), apply_header_get]
    by_cases hs : profile.meta.socials.isEmpty <;> simp [hs]

/-- C9: the omission helper skips only None and empty lists, never the empty
string, so an empty-string optional field is written with the empty string,
both in the header and in a mapped entry. -/
theorem C9_empty_string_still_written (d : Dict) (k : String) (profile : Profile)
    (plan : LlmSelectionPlan) (exp : Experience) :
    set_if_present d k (PyVal.str "") = dictSet d k (Value.str "")
  ∧ set_if_present d k (PyVal.list []) = d
  ∧ set_if_present d k PyVal.none = d
  ∧ (profile.meta.headline = Option.some "" →
      dictGet (cvObjOf (build_cv_dict profile plan)) "headline"
        = Option.some (Value.str ""))
  ∧ (exp.summary = Option.some "" →
      dictGet (expEntry plan exp) "summary" = Option.some (Value.str "")) := by
  refine ⟨rfl, rfl, rfl, ?_, ?_⟩
  · intro h
    rw [cvObj_get_of_ne_sections _ _ _ (by decide), apply_header_get]
    simp [h]
  · intro h
    rw [expEntry_get_of_ne _ _ _ (by decide), expFields_summary, h]
    rfl

/-- C9 witness: the empty-headline profile keeps its headline key with the
empty string in the built cv. -/
theorem C9_empty_string_still_written_witness :
    dictGet (cvObjOf (build_cv_dict profileEmptyW planEmptyW)) "headline"
      = Option.some (Value.str "") := by
  exact (C9_empty_string_still_written [] "k" profileEmptyW planEmptyW exW).2.2.2.1 rfl

/-- C10: the mapper output has exactly the single top-level key cv, the cv
object always carries the name key, and when no category yields a mapped
entry the cv object has no sections key at all. -/
theorem C10_top_level_shape (profile : Profile) (plan : LlmSelectionPlan) :
    (build_cv_dict profile plan).map Prod.fst = ["cv"]
  ∧ hasKey (cvObjOf (build_cv_dict profile plan)) "name" = true
  ∧ ((map_experience profile plan).isEmpty ∧ (map_projects profile plan).isEmpty
      ∧ (map_education profile plan).isEmpty ∧ (map_skills profile plan).isEmpty →
      dictGet (cvObjOf (build_cv_dict profile plan)) "sections" = Option.none) := by
  refine ⟨?_, ?_, ?_⟩
  · simp [build_cv_dict]
  · have hname : dictGet (cvObjOf (build_cv_dict profile plan)) "name"
        = Option.some (Value.str profile.meta.name) := by
      rw [cvObj_get_of_ne_sections _ _ _ (by decide), apply_header_get]
      simp
    rw [hasKey_iff_dictGet, hname]
    simp
  · rintro ⟨h1, h2, h3, h4⟩
    have hbs : build_sections profile plan = [] := by
      rw [build_sections_eq]
      simp [h1, h2, h3, h4]
    have hord : order_sections (build_sections profile plan) plan.section_order = [] := by
      rw [hbs]
      exact (order_sections_perm ([] : List (String × Value)) plan.section_order).eq_nil
    rw [cvObj_sections, hord]
    simp

/-- C10 witness: the empty profile with the empty plan yields a cv with no
sections key. -/
theorem C10_top_level_shape_witness :
    dictGet (cvObjOf (build_cv_dict profileEmptyW planEmptyW)) "sections"
      = Option.none := by
  exact (C10_top_level_shape profileEmptyW planEmptyW).2.2 ⟨rfl, rfl, rfl, rfl⟩

end TailorCV
